import Mathlib

/-!
Verification of the trackex-desktop-agent telemetry engine.

This file gives a shallow embedding, in Lean 4, of the pure state and
logic of the agent's sampling, classification and offline-durable
delivery code (`src-tauri/src` in the repository), together with
theorems settling the frozen claims about it.

Conventions of the embedding:
* Rust `DateTime<Utc>` instants are modelled as `Int` (whole seconds);
  `chrono::Duration::num_seconds` of a difference of two instants is
  then plain integer subtraction.
* Rust `i32` / `i64` / `u64` are modelled as `Int` / `Nat`; none of the
  verified code paths can overflow a 64-bit machine integer, so no
  wrap-around is modelled.
* SQLite tables are modelled as in-memory lists of row structures, one
  structure per table, with each SQL statement of the source translated
  to the corresponding pure list operation (WHERE is `filter`,
  ORDER BY is a stable sort, LIMIT is `take`, UPDATE ... WHERE id is a
  `map` that rewrites the matching row).
* The external `regex` crate is modelled as an explicit engine record
  `RegexEngine` (compilation returns `none` exactly when the pattern is
  invalid); theorems quantify over every engine, concrete witnesses use
  a trivial engine.
* Network I/O is modelled by passing the outcome of the HTTP exchange
  (`Except String Unit`) as an explicit argument to the function that
  performs it.
-/

/-! ## Productivity classifier (`utils/productivity.rs`) -/

/-- Embeds `enum ProductivityCategory` from `utils/productivity.rs`. -/
inductive ProductivityCategory where
  | PRODUCTIVE
  | NEUTRAL
  | UNPRODUCTIVE
deriving DecidableEq, Repr

/-- Embeds `struct AppRule` from `utils/productivity.rs`.  `matcher_type`
is kept as a string exactly as in the source (the Rust code matches on
the strings "EXACT", "GLOB", "REGEX", "DOMAIN" and silently rejects
anything else). -/
structure AppRule where
  matcher_type : String
  value : String
  category : ProductivityCategory
  priority : Int
  is_active : Bool
deriving DecidableEq, Repr

/-- Model of the external `regex` crate: `compile` returns `none`
exactly when `Regex::new` would return an `Err`, and otherwise the
match predicate of the compiled regex. -/
structure RegexEngine where
  compile : String → Option (String → Bool)

/-- An engine on which every pattern fails to compile; used as the
concrete engine of witnesses that do not involve regex matching. -/
def noRegexEngine : RegexEngine := ⟨fun _ => none⟩

/-- ASCII lower-casing of one character, the per-byte operation under
Rust's `eq_ignore_ascii_case` and `to_ascii_lowercase`. -/
def asciiLowerChar (c : Char) : Char :=
  if 'A' ≤ c ∧ c ≤ 'Z' then Char.ofNat (c.toNat + 32) else c

/-- Embeds Rust `str::eq_ignore_ascii_case`: the two strings are equal
after ASCII-lower-casing each character (non-ASCII characters are left
untouched and compared exactly, as Rust's per-byte definition does on
the UTF-8 encoding). -/
def eqIgnoreAsciiCase (s t : String) : Bool :=
  decide (s.data.map asciiLowerChar = t.data.map asciiLowerChar)

/-- ASCII fragment of Rust `str::to_lowercase` as used by
`extract_domain_from_title`; the source only compares the result
case-insensitively against ASCII rule values. -/
def rustToLowercase (s : String) : String :=
  ⟨s.data.map asciiLowerChar⟩

/-- Embeds `ProductivityClassifier::matches_glob`: the glob is rewritten
to a regex by the three literal `replace` calls of the source, anchored,
compiled, and an invalid result is treated as a non-match. -/
def matches_glob (engine : RegexEngine) (pattern text : String) : Bool :=
  let regex_pattern := ((pattern.replace "." "\\.").replace "*" ".*").replace "?" "."
  match engine.compile ("^" ++ regex_pattern ++ "$") with
  | some m => m text
  | none => false

/-- Embeds `ProductivityClassifier::matches_regex`: an invalid pattern
(`Regex::new` returns `Err`) is treated as a non-match. -/
def matches_regex (engine : RegexEngine) (pattern text : String) : Bool :=
  match engine.compile pattern with
  | some m => m text
  | none => false

/-- Embeds `ProductivityClassifier::extract_domain_from_title`: the
anchored regex `^([^-\s]+)` captures the maximal non-empty leading run
of characters that are neither a hyphen nor whitespace; the capture is
lower-cased.  No match (title starts with a hyphen or whitespace, or is
empty) yields `none`. -/
def extract_domain_from_title (title : String) : Option String :=
  let tok := title.takeWhile (fun c => ¬ (c = '-' ∨ c.isWhitespace))
  if tok.isEmpty then none else some (rustToLowercase tok)

/-- Embeds `ProductivityClassifier::matches_rule`, dispatching on the
rule's `matcher_type` string exactly as the Rust `match` does, with an
unknown matcher type matching nothing. -/
def matches_rule (engine : RegexEngine) (rule : AppRule)
    (app_name app_id : String) (window_title : Option String) : Bool :=
  if rule.matcher_type = "EXACT" then
    eqIgnoreAsciiCase app_name rule.value ||
    eqIgnoreAsciiCase app_id rule.value ||
    (match window_title with
     | some title => eqIgnoreAsciiCase title rule.value
     | none => false)
  else if rule.matcher_type = "GLOB" then
    matches_glob engine rule.value app_name ||
    matches_glob engine rule.value app_id ||
    (match window_title with
     | some title => matches_glob engine rule.value title
     | none => false)
  else if rule.matcher_type = "REGEX" then
    matches_regex engine rule.value app_name ||
    matches_regex engine rule.value app_id ||
    (match window_title with
     | some title => matches_regex engine rule.value title
     | none => false)
  else if rule.matcher_type = "DOMAIN" then
    match window_title with
    | some title =>
      match extract_domain_from_title title with
      | some domain => eqIgnoreAsciiCase domain rule.value
      | none => false
    | none => false
  else
    false

/-- Embeds `struct ProductivityClassifier`. -/
structure ProductivityClassifier where
  rules : List AppRule
  default_category : ProductivityCategory

/-- Embeds `ProductivityClassifier::new`: no rules, default category
NEUTRAL. -/
def ProductivityClassifier.new : ProductivityClassifier :=
  ⟨[], ProductivityCategory.NEUTRAL⟩

/-- Stable insertion of a rule into a list sorted by descending
`priority` (an element is placed before the first strictly-lower-or-tied
position, i.e. before the first element whose priority is ≤ its own). -/
def sortInsert (r : AppRule) : List AppRule → List AppRule
  | [] => [r]
  | y :: ys => if y.priority ≤ r.priority then r :: y :: ys else y :: sortInsert r ys

/-- Stable sort of a rule list by descending `priority`.  This embeds
Rust's `Vec::sort_by(|a, b| b.priority.cmp(&a.priority))`: `sort_by` is
a stable sort, and the stable descending-priority permutation of a list
is unique, so this insertion sort computes exactly the same list. -/
def sortRules : List AppRule → List AppRule
  | [] => []
  | x :: xs => sortInsert x (sortRules xs)

/-- Embeds `ProductivityClassifier::add_rule`: push the rule, then
re-sort the whole vector by descending priority with a stable sort. -/
def ProductivityClassifier.add_rule (c : ProductivityClassifier) (r : AppRule) :
    ProductivityClassifier :=
  { c with rules := sortRules (c.rules ++ [r]) }

/-- Embeds `ProductivityClassifier::add_rules`: add each rule in order. -/
def ProductivityClassifier.add_rules (c : ProductivityClassifier) (rs : List AppRule) :
    ProductivityClassifier :=
  rs.foldl ProductivityClassifier.add_rule c

/-- The loop body of `classify_app`: the first rule in list order that
is active and whose matcher is satisfied (`continue` on inactive rules,
`return` on the first match). -/
def firstMatch (engine : RegexEngine) (app_name app_id : String)
    (window_title : Option String) : List AppRule → Option AppRule
  | [] => none
  | r :: rs =>
    if r.is_active && matches_rule engine r app_name app_id window_title then
      some r
    else
      firstMatch engine app_name app_id window_title rs

/-- Embeds `ProductivityClassifier::classify_app`: iterate the stored
(priority-sorted) rule vector, skip inactive rules, return the category
of the first rule whose matcher is satisfied, else the default
category. -/
def ProductivityClassifier.classify_app (c : ProductivityClassifier)
    (engine : RegexEngine) (app_name app_id : String)
    (window_title : Option String) : ProductivityCategory :=
  match firstMatch engine app_name app_id window_title c.rules with
  | some r => r.category
  | none => c.default_category

/-! ## App usage session tracker (`storage/app_usage.rs`)

Instants are `Int` seconds; `Utc::now()` at each call site becomes an
explicit `now` argument.  `save_session_to_db` persists a closed session
and does not change the tracker state, so it has no counterpart in the
pure model (the database connection of the model never fails). -/

/-- Embeds `struct AppUsageSession`. -/
structure AppUsageSession where
  id : Option Int
  app_name : String
  app_id : String
  window_title : Option String
  category : ProductivityCategory
  start_time : Int
  end_time : Option Int
  duration_seconds : Int
  is_idle : Bool
  is_active : Bool
deriving DecidableEq, Repr

/-- Embeds the state of `struct AppUsageTracker`. -/
structure AppUsageTracker where
  current_session : Option AppUsageSession
  session_history : List AppUsageSession
  total_productive_time : Int
  total_neutral_time : Int
  total_unproductive_time : Int
  total_idle_time : Int
deriving Repr

/-- Embeds `AppUsageTracker::new`. -/
def AppUsageTracker.new : AppUsageTracker :=
  ⟨none, [], 0, 0, 0, 0⟩

/-- Embeds `AppUsageTracker::update_totals`. -/
def AppUsageTracker.update_totals (t : AppUsageTracker) (s : AppUsageSession) :
    AppUsageTracker :=
  if s.is_idle then
    { t with total_idle_time := t.total_idle_time + s.duration_seconds }
  else
    match s.category with
    | ProductivityCategory.PRODUCTIVE =>
      { t with total_productive_time := t.total_productive_time + s.duration_seconds }
    | ProductivityCategory.NEUTRAL =>
      { t with total_neutral_time := t.total_neutral_time + s.duration_seconds }
    | ProductivityCategory.UNPRODUCTIVE =>
      { t with total_unproductive_time := t.total_unproductive_time + s.duration_seconds }

/-- Embeds `AppUsageTracker::start_app_session` at instant `now`: if a
current session exists it is closed (end_time stamped, duration computed
as `(now - start_time).num_seconds()`, is_active cleared), its totals
accumulated and it is pushed onto the history; then a fresh active
session is opened. -/
def AppUsageTracker.start_app_session (t : AppUsageTracker) (now : Int)
    (app_name app_id : String) (window_title : Option String)
    (category : ProductivityCategory) (is_idle : Bool) : AppUsageTracker :=
  let t1 :=
    match t.current_session with
    | some current =>
      let closed := { current with
        end_time := some now,
        duration_seconds := now - current.start_time,
        is_active := false }
      let t' := AppUsageTracker.update_totals { t with current_session := none } closed
      { t' with session_history := t'.session_history ++ [closed] }
    | none => t
  let new_session : AppUsageSession :=
    { id := none, app_name := app_name, app_id := app_id,
      window_title := window_title, category := category,
      start_time := now, end_time := none, duration_seconds := 0,
      is_idle := is_idle, is_active := true }
  { t1 with current_session := some new_session }

/-- Embeds `AppUsageTracker::update_current_session`: only refreshes the
idle flag of the open session, if any. -/
def AppUsageTracker.update_current_session (t : AppUsageTracker) (is_idle : Bool) :
    AppUsageTracker :=
  match t.current_session with
  | some s => { t with current_session := some { s with is_idle := is_idle } }
  | none => t

/-- Embeds `AppUsageTracker::end_current_session` at instant `now`: the
open session, if any, is closed exactly as in `start_app_session` and
pushed onto the history; no new session is opened.  The forced close
executed when the sampling loop terminates (`app_focus.rs`, end of
`start_sampling`) calls this same function. -/
def AppUsageTracker.end_current_session (t : AppUsageTracker) (now : Int) :
    AppUsageTracker :=
  match t.current_session with
  | some current =>
    let closed := { current with
      end_time := some now,
      duration_seconds := now - current.start_time,
      is_active := false }
    let t' := AppUsageTracker.update_totals { t with current_session := none } closed
    { t' with session_history := t'.session_history ++ [closed] }
  | none => t

/-- One call on the tracker, with the wall-clock instant of the call
made explicit. -/
inductive TrackerOp where
  | start (now : Int) (app_name app_id : String) (window_title : Option String)
      (category : ProductivityCategory) (is_idle : Bool)
  | update (is_idle : Bool)
  | close (now : Int)

/-- Applies one tracker call. -/
def applyTrackerOp (t : AppUsageTracker) : TrackerOp → AppUsageTracker
  | TrackerOp.start now n i w c idle => t.start_app_session now n i w c idle
  | TrackerOp.update idle => t.update_current_session idle
  | TrackerOp.close now => t.end_current_session now

/-- Runs a sequence of tracker calls. -/
def runTrackerOps (t : AppUsageTracker) (ops : List TrackerOp) : AppUsageTracker :=
  ops.foldl applyTrackerOp t

/-- All sessions held by the tracker: the open one (if any) plus the
history. -/
def trackerSessions (t : AppUsageTracker) : List AppUsageSession :=
  t.current_session.toList ++ t.session_history

/-! ## Durable delivery queue (`storage/offline_queue.rs`)

One row structure per SQLite table (`event_queue`, `heartbeat_queue`),
with the columns relevant to queue semantics; the schema defaults
(`storage/database.rs`) are `processed = 0`, `retry_count = 0`,
`max_retries = 3`. -/

/-- A row of the `event_queue` table. -/
structure EventRow where
  id : Int
  event_type : String
  event_data : String
  timestamp : Int
  retry_count : Int
  max_retries : Int
  processed : Bool
deriving DecidableEq, Repr

/-- A row of the `heartbeat_queue` table. -/
structure HeartbeatRow where
  id : Int
  heartbeat_data : String
  timestamp : Int
  retry_count : Int
  max_retries : Int
  processed : Bool
deriving DecidableEq, Repr

/-- Stable insertion into a list sorted ascending by the key `k`. -/
def insertAsc {α : Type} (k : α → Int) (r : α) : List α → List α
  | [] => [r]
  | y :: ys => if k r ≤ k y then r :: y :: ys else y :: insertAsc k r ys

/-- Stable ascending sort by the key `k`; models SQL
`ORDER BY timestamp ASC`. -/
def sortAsc {α : Type} (k : α → Int) : List α → List α
  | [] => []
  | x :: xs => insertAsc k x (sortAsc k xs)

/-- Embeds `queue_event` at instant `now`: INSERT a fresh row (the
autoincremented primary key is made explicit as `new_id`), with the
schema defaults `retry_count = 0`, `max_retries = 3`, `processed = 0`. -/
def queue_event (event_type event_data : String) (new_id now : Int)
    (db : List EventRow) : List EventRow :=
  db ++ [{ id := new_id, event_type := event_type, event_data := event_data,
           timestamp := now, retry_count := 0, max_retries := 3, processed := false }]

/-- Embeds `queue_heartbeat` at instant `now`. -/
def queue_heartbeat (heartbeat_data : String) (new_id now : Int)
    (db : List HeartbeatRow) : List HeartbeatRow :=
  db ++ [{ id := new_id, heartbeat_data := heartbeat_data,
           timestamp := now, retry_count := 0, max_retries := 3, processed := false }]

/-- Embeds `get_pending_events`:
`WHERE processed = 0 AND retry_count < max_retries ORDER BY timestamp ASC LIMIT 10`. -/
def get_pending_events (db : List EventRow) : List EventRow :=
  (sortAsc (fun r => r.timestamp)
    (db.filter (fun r => !r.processed && r.retry_count < r.max_retries))).take 10

/-- Embeds `get_pending_heartbeats` (same query on `heartbeat_queue`). -/
def get_pending_heartbeats (db : List HeartbeatRow) : List HeartbeatRow :=
  (sortAsc (fun r => r.timestamp)
    (db.filter (fun r => !r.processed && r.retry_count < r.max_retries))).take 10

/-- Embeds `mark_event_failed`:
`UPDATE event_queue SET retry_count = retry_count + 1 WHERE id = ?`. -/
def mark_event_failed (event_id : Int) (db : List EventRow) : List EventRow :=
  db.map (fun r => if r.id = event_id then { r with retry_count := r.retry_count + 1 } else r)

/-- Embeds `mark_event_processed`:
`UPDATE event_queue SET processed = 1 WHERE id = ?`. -/
def mark_event_processed (event_id : Int) (db : List EventRow) : List EventRow :=
  db.map (fun r => if r.id = event_id then { r with processed := true } else r)

/-- Embeds `mark_heartbeat_failed`. -/
def mark_heartbeat_failed (hb_id : Int) (db : List HeartbeatRow) : List HeartbeatRow :=
  db.map (fun r => if r.id = hb_id then { r with retry_count := r.retry_count + 1 } else r)

/-- Embeds `mark_heartbeat_processed`. -/
def mark_heartbeat_processed (hb_id : Int) (db : List HeartbeatRow) : List HeartbeatRow :=
  db.map (fun r => if r.id = hb_id then { r with processed := true } else r)

/-- A sequence of `mark_event_failed` calls (`get_pending_events` reads
the table without mutating it, so drain calls need no representation in
a state trace). -/
def applyEventFailures (ids : List Int) (db : List EventRow) : List EventRow :=
  ids.foldl (fun d i => mark_event_failed i d) db

/-- A sequence of `mark_heartbeat_failed` calls. -/
def applyHeartbeatFailures (ids : List Int) (db : List HeartbeatRow) : List HeartbeatRow :=
  ids.foldl (fun d i => mark_heartbeat_failed i d) db

/-- A row that is no longer eligible for delivery: processed, or out of
retry budget. -/
def EventRow.terminal (r : EventRow) : Prop :=
  r.processed = true ∨ r.max_retries ≤ r.retry_count

/-- A heartbeat row that is no longer eligible for delivery. -/
def HeartbeatRow.terminal (r : HeartbeatRow) : Prop :=
  r.processed = true ∨ r.max_retries ≤ r.retry_count

/-! ## Idle transition detection (`sampling/mod.rs`, idle service loop)

The loop state is the pair `IDLE_STATE_INITIALIZED` / `LAST_IDLE_STATE`,
modelled as `Option Bool` (`none` = uninitialized, the value the state
is reset to whenever the gate is closed).  Each gate-open iteration
reads one idle-time value (`u64` seconds, modelled as `Nat`) and may
emit one transition event. -/

/-- One gate-open iteration of the idle detection loop: derive
`is_idle = idle_time >= threshold`; on the first reading only seed the
baseline and emit nothing; afterwards emit `idle_start` / `idle_end`
exactly when the derived boolean differs from the last observed one.
Returns the emitted event (if any) and the new baseline state. -/
def idleStep (threshold : Nat) (st : Option Bool) (idle_time : Nat) :
    Option String × Option Bool :=
  let is_idle := decide (threshold ≤ idle_time)
  match st with
  | none => (none, some is_idle)
  | some last =>
    if last ≠ is_idle then
      ((if is_idle then some "idle_start" else some "idle_end"), some is_idle)
    else
      (none, some is_idle)

/-- Runs the idle loop over a list of readings, collecting the event (or
absence of one) produced at each reading. -/
def idleEvents (threshold : Nat) (st : Option Bool) : List Nat → List (Option String)
  | [] => []
  | r :: rs =>
    let step := idleStep threshold st r
    step.1 :: idleEvents threshold step.2 rs

/-! ## Delivery attempts and the deliver-or-queue fallback
(`sampling/mod.rs`, `sampling/app_focus.rs`, `sampling/heartbeat.rs`)

Both senders open with the same prelude, each call followed by `?`:
`get_server_url()` (never an error: it falls back to a default URL when
no URL is stored), `get_device_token()` (an error whenever the stored
token is missing or empty), and `get_device_id()` (defined outside the
packaged sources; its result is passed in as an explicit argument and
its error, like any other, is propagated by `?`).  Only past that
prelude comes the `is_empty` configuration gate; past the gate the
behaviour is a network exchange, whose outcome is passed in as `net`. -/

/-- Embeds `get_server_url` (`storage/mod.rs:87-104`): the stored URL if
one is present (it may be the empty string), else the default
`https://www.trackex.app`; never an error. -/
def get_server_url (stored_url : Option String) : String :=
  match stored_url with
  | some url => url
  | none => "https://www.trackex.app"

/-- Embeds `get_device_token` (`storage/mod.rs:106-125`): the stored
token if present and non-empty, otherwise an `Err` (a missing global
app state is a further error path, outside the stored states modelled
here). -/
def get_device_token (stored_token : Option String) : Except String String :=
  match stored_token with
  | some token =>
    if token.isEmpty then
      Except.error "Device token is empty - user not authenticated"
    else
      Except.ok token
  | none => Except.error "No device token found - user not authenticated"

/-- Embeds the prelude and configuration gate of `send_event_to_backend`
(`sampling/mod.rs:598-607`): the three storage reads with `?`
propagation, then `return Ok(())` when the server URL or device token is
empty, else the HTTP exchange.  Because `get_device_token` never returns
an empty string, the token half of the gate cannot fire. -/
def send_event_to_backend (stored_url stored_token : Option String)
    (device_id_result : Except String String)
    (net : Except String Unit) : Except String Unit :=
  let server_url := get_server_url stored_url
  match get_device_token stored_token with
  | Except.error e => Except.error e
  | Except.ok device_token =>
    match device_id_result with
    | Except.error e => Except.error e
    | Except.ok _device_id =>
      if server_url.isEmpty || device_token.isEmpty then Except.ok ()
      else net

/-- Embeds the prelude and configuration gate of
`send_heartbeat_to_backend` (`sampling/mod.rs:538-549`): the same three
storage reads with `?` propagation, then an explicit `Err` when the
server URL or device token is empty, else the reachability probe plus
HTTP exchange. -/
def send_heartbeat_to_backend (stored_url stored_token : Option String)
    (device_id_result : Except String String)
    (net : Except String Unit) : Except String Unit :=
  let server_url := get_server_url stored_url
  match get_device_token stored_token with
  | Except.error e => Except.error e
  | Except.ok device_token =>
    match device_id_result with
    | Except.error e => Except.error e
    | Except.ok _device_id =>
      if server_url.isEmpty || device_token.isEmpty then
        Except.error "Server URL or device token is empty"
      else net

/-- Embeds the delivery block of an app-change iteration of
`app_focus::start_sampling`: attempt immediate delivery of the
`app_focus` event; on `Err`, enqueue the same payload via `queue_event`;
on `Ok`, leave the queue untouched. -/
def appFocusDeliver (send_result : Except String Unit)
    (event_type event_data : String) (new_id now : Int)
    (db : List EventRow) : List EventRow :=
  match send_result with
  | Except.ok _ => db
  | Except.error _ => queue_event event_type event_data new_id now db

/-- Embeds the delivery block of `heartbeat.rs`: attempt immediate
delivery; on `Err`, enqueue the same payload via `queue_heartbeat`. -/
def heartbeatDeliver (send_result : Except String Unit)
    (heartbeat_data : String) (new_id now : Int)
    (db : List HeartbeatRow) : List HeartbeatRow :=
  match send_result with
  | Except.ok _ => db
  | Except.error _ => queue_heartbeat heartbeat_data new_id now db

/-! ## Theorems -/

/-- C4: Idle transitions are edge-triggered and baseline-seeded.  With
the baseline uninitialized, the first gate-open reading emits no event
and only records the boolean `idle_time >= threshold`; thereafter an
`idle_start` (resp. `idle_end`) event is emitted exactly when the
derived boolean flips from false to true (resp. true to false); for
readings `[50, 80, 310, 320, 90]` with threshold 300, events fire only
at the third reading (`idle_start`) and the fifth reading (`idle_end`). -/
theorem idle_edge_triggering :
    (∀ (threshold r : Nat),
      idleStep threshold none r = (none, some (decide (threshold ≤ r))))
    ∧ (∀ (threshold : Nat) (last : Bool) (r : Nat),
        ((idleStep threshold (some last) r).1 = some "idle_start"
            ↔ (last = false ∧ threshold ≤ r))
        ∧ ((idleStep threshold (some last) r).1 = some "idle_end"
            ↔ (last = true ∧ r < threshold))
        ∧ (idleStep threshold (some last) r).2 = some (decide (threshold ≤ r)))
    ∧ idleEvents 300 none [50, 80, 310, 320, 90]
        = [none, none, some "idle_start", none, some "idle_end"] := by
  refine ⟨fun threshold r => rfl, fun threshold last r => ?_, by decide⟩
  by_cases h : threshold ≤ r
  · cases last <;> simp [idleStep, h]
  · cases last
    · simp [idleStep, h]
    · simp [idleStep, h]
      omega

/-- C5: Deliver-or-queue for app focus.  On an app-change iteration, a
failed immediate delivery of the `app_focus` event enqueues the same
payload into the durable event queue (as a fresh unprocessed row with
`retry_count = 0`), and a successful delivery leaves the queue
untouched; a failure therefore never drops the event without a queue
attempt. -/
theorem app_focus_deliver_or_queue :
    (∀ (e event_type event_data : String) (new_id now : Int) (db : List EventRow),
      appFocusDeliver (Except.error e) event_type event_data new_id now db
        = db ++ [{ id := new_id, event_type := event_type, event_data := event_data,
                   timestamp := now, retry_count := 0, max_retries := 3,
                   processed := false }]
      ∧ ({ id := new_id, event_type := event_type, event_data := event_data,
           timestamp := now, retry_count := 0, max_retries := 3,
           processed := false } : EventRow)
          ∈ appFocusDeliver (Except.error e) event_type event_data new_id now db)
    ∧ (∀ (event_type event_data : String) (new_id now : Int) (db : List EventRow),
      appFocusDeliver (Except.ok ()) event_type event_data new_id now db = db) := by
  refine ⟨fun e et ed ni now db => ⟨rfl, ?_⟩, fun _ _ _ _ _ => rfl⟩
  simp [appFocusDeliver, queue_event]

/-- C10 counterexample: the claim's device-token half is false.  With
an empty stored device token, `get_device_token` returns an error that
the `?` operator propagates out of `send_event_to_backend` before the
`Ok(())` configuration gate is ever reached, so the sender errors and
the caller's fallback queues the event instead of dropping it. -/
theorem unconfigured_token_counterexample :
    send_event_to_backend (some "https://x") (some "") (Except.ok "dev1")
        (Except.ok ())
      = Except.error "Device token is empty - user not authenticated"
    ∧ appFocusDeliver
        (send_event_to_backend (some "https://x") (some "") (Except.ok "dev1")
          (Except.ok ()))
        "app_focus" "d" 7 9 []
      = queue_event "app_focus" "d" 7 9 [] :=
  ⟨rfl, rfl⟩

/-- C10 amended: only the server-URL half of the divergence is real.
With an empty stored server URL, a stored non-empty device token and a
successful device-id lookup, `send_event_to_backend` returns `Ok`
without delivering — so the app-focus fallback is never taken and the
event is silently dropped — while `send_heartbeat_to_backend` returns an
error in the same state, so heartbeats do get queued.  With an empty (or
missing) stored device token both senders instead propagate
`get_device_token`'s error before the emptiness gate (whose token half
is dead code), so events are queued, never dropped, and the two paths
agree. -/
theorem unconfigured_endpoint_divergence :
    (∀ (tok did : String) (net : Except String Unit),
      tok.isEmpty = false →
      send_event_to_backend (some "") (some tok) (Except.ok did) net
        = Except.ok ()
      ∧ (∃ e, send_heartbeat_to_backend (some "") (some tok) (Except.ok did) net
          = Except.error e))
    ∧ (∀ (stored_url : Option String) (did_result : Except String String)
        (net : Except String Unit),
      (∃ e, send_event_to_backend stored_url (some "") did_result net
          = Except.error e)
      ∧ (∃ e, send_heartbeat_to_backend stored_url (some "") did_result net
          = Except.error e))
    ∧ (∀ (tok did : String) (net : Except String Unit)
        (event_type event_data : String) (new_id now : Int) (db : List EventRow),
      tok.isEmpty = false →
      appFocusDeliver (send_event_to_backend (some "") (some tok) (Except.ok did) net)
        event_type event_data new_id now db = db)
    ∧ (∀ (tok did : String) (net : Except String Unit)
        (heartbeat_data : String) (new_id now : Int) (db : List HeartbeatRow),
      tok.isEmpty = false →
      heartbeatDeliver
        (send_heartbeat_to_backend (some "") (some tok) (Except.ok did) net)
        heartbeat_data new_id now db
        = queue_heartbeat heartbeat_data new_id now db)
    ∧ (∀ (stored_url : Option String) (did_result : Except String String)
        (net : Except String Unit) (event_type event_data : String)
        (new_id now : Int) (db : List EventRow),
      appFocusDeliver (send_event_to_backend stored_url (some "") did_result net)
        event_type event_data new_id now db
        = queue_event event_type event_data new_id now db) := by
  have hemp : ("" : String).isEmpty = true := rfl
  have hev : ∀ (tok did : String) (net : Except String Unit),
      tok.isEmpty = false →
      send_event_to_backend (some "") (some tok) (Except.ok did) net
        = Except.ok () := by
    intro tok did net htok
    simp [send_event_to_backend, get_device_token, get_server_url, htok, hemp]
  have hhb : ∀ (tok did : String) (net : Except String Unit),
      tok.isEmpty = false →
      send_heartbeat_to_backend (some "") (some tok) (Except.ok did) net
        = Except.error "Server URL or device token is empty" := by
    intro tok did net htok
    simp [send_heartbeat_to_backend, get_device_token, get_server_url, htok, hemp]
  refine ⟨?_, ?_, ?_, ?_, ?_⟩
  · intro tok did net htok
    exact ⟨hev tok did net htok, _, hhb tok did net htok⟩
  · intro stored_url did_result net
    exact ⟨⟨_, rfl⟩, ⟨_, rfl⟩⟩
  · intro tok did net event_type event_data new_id now db htok
    rw [hev tok did net htok]
    rfl
  · intro tok did net heartbeat_data new_id now db htok
    rw [hhb tok did net htok]
    rfl
  · intro stored_url did_result net event_type event_data new_id now db
    rfl

/-- Witness for `unconfigured_endpoint_divergence` at a concrete stored
configuration with an empty server URL and a non-empty token. -/
theorem unconfigured_endpoint_divergence_witness :
    (send_event_to_backend (some "") (some "tok") (Except.ok "dev1")
        (Except.error "net down") = Except.ok ()
      ∧ (∃ e, send_heartbeat_to_backend (some "") (some "tok") (Except.ok "dev1")
          (Except.error "net down") = Except.error e))
    ∧ appFocusDeliver
        (send_event_to_backend (some "") (some "tok") (Except.ok "dev1")
          (Except.error "net down")) "app_focus" "d" 7 9 [] = []
    ∧ heartbeatDeliver
        (send_heartbeat_to_backend (some "") (some "tok") (Except.ok "dev1")
          (Except.error "net down")) "h" 7 9 []
        = queue_heartbeat "h" 7 9 [] :=
  ⟨unconfigured_endpoint_divergence.1 "tok" "dev1" (Except.error "net down") rfl,
   unconfigured_endpoint_divergence.2.2.1 "tok" "dev1" (Except.error "net down")
     "app_focus" "d" 7 9 [] rfl,
   unconfigured_endpoint_divergence.2.2.2.1 "tok" "dev1" (Except.error "net down")
     "h" 7 9 [] rfl⟩

/-! ### Lemmas about the stable ascending sort used by the drain queries -/

theorem mem_insertAsc {α : Type} (k : α → Int) (r x : α) (l : List α) :
    x ∈ insertAsc k r l ↔ x = r ∨ x ∈ l := by
  induction l with
  | nil => simp [insertAsc]
  | cons y ys ih =>
    by_cases h : k r ≤ k y
    · simp [insertAsc, h]
    · simp [insertAsc, h, ih]
      tauto

theorem mem_sortAsc {α : Type} (k : α → Int) (x : α) (l : List α) :
    x ∈ sortAsc k l ↔ x ∈ l := by
  induction l with
  | nil => simp [sortAsc]
  | cons y ys ih => simp [sortAsc, mem_insertAsc, ih]

theorem insertAsc_pairwise {α : Type} (k : α → Int) (r : α) (l : List α)
    (h : l.Pairwise (fun a b => k a ≤ k b)) :
    (insertAsc k r l).Pairwise (fun a b => k a ≤ k b) := by
  induction l with
  | nil => simp [insertAsc]
  | cons y ys ih =>
    rcases List.pairwise_cons.mp h with ⟨hy, hys⟩
    by_cases hc : k r ≤ k y
    · rw [insertAsc, if_pos hc]
      refine List.pairwise_cons.mpr ⟨?_, h⟩
      intro z hz
      rcases List.mem_cons.mp hz with hz | hz
      · exact hz ▸ hc
      · exact le_trans hc (hy z hz)
    · rw [insertAsc, if_neg hc]
      refine List.pairwise_cons.mpr ⟨?_, ih hys⟩
      intro z hz
      rcases (mem_insertAsc k r z ys).mp hz with hz | hz
      · exact hz ▸ le_of_lt (lt_of_not_le hc)
      · exact hy z hz

theorem sortAsc_pairwise {α : Type} (k : α → Int) (l : List α) :
    (sortAsc k l).Pairwise (fun a b => k a ≤ k b) := by
  induction l with
  | nil => simp [sortAsc]
  | cons y ys ih => exact insertAsc_pairwise k y (sortAsc k ys) ih

/-- C7: Drain candidate selection.  Both `get_pending_events` and
`get_pending_heartbeats` return only rows with `processed = false` and
`retry_count < max_retries`, ordered oldest-first by timestamp, and at
most 10 rows (the LIMIT of the source query) per call. -/
theorem drain_candidate_selection :
    (∀ (db : List EventRow),
      (∀ r ∈ get_pending_events db,
        r.processed = false ∧ r.retry_count < r.max_retries)
      ∧ (get_pending_events db).Pairwise (fun a b => a.timestamp ≤ b.timestamp)
      ∧ (get_pending_events db).length ≤ 10)
    ∧ (∀ (db : List HeartbeatRow),
      (∀ r ∈ get_pending_heartbeats db,
        r.processed = false ∧ r.retry_count < r.max_retries)
      ∧ (get_pending_heartbeats db).Pairwise (fun a b => a.timestamp ≤ b.timestamp)
      ∧ (get_pending_heartbeats db).length ≤ 10) := by
  constructor
  · intro db
    refine ⟨?_, ?_, ?_⟩
    · intro r hr
      have hr' := (List.take_sublist 10 _).mem hr
      have hr'' := (mem_sortAsc _ r _).mp hr'
      have hp := List.of_mem_filter hr''
      simp only [Bool.and_eq_true, Bool.not_eq_eq_eq_not, Bool.not_true, decide_eq_true_eq] at hp
      exact ⟨by simpa using hp.1, hp.2⟩
    · exact (sortAsc_pairwise _ _).sublist (List.take_sublist 10 _)
    · exact List.length_take_le 10 _
  · intro db
    refine ⟨?_, ?_, ?_⟩
    · intro r hr
      have hr' := (List.take_sublist 10 _).mem hr
      have hr'' := (mem_sortAsc _ r _).mp hr'
      have hp := List.of_mem_filter hr''
      simp only [Bool.and_eq_true, Bool.not_eq_eq_eq_not, Bool.not_true, decide_eq_true_eq] at hp
      exact ⟨by simpa using hp.1, hp.2⟩
    · exact (sortAsc_pairwise _ _).sublist (List.take_sublist 10 _)
    · exact List.length_take_le 10 _

/-! ### Retry accounting -/

theorem mark_event_failed_terminal_id (j i : Int) (db : List EventRow)
    (h : ∀ r ∈ db, r.id = j → r.terminal) :
    ∀ r' ∈ mark_event_failed i db, r'.id = j → r'.terminal := by
  intro r' hr' hid
  rcases List.mem_map.mp hr' with ⟨r, hr, hf⟩
  subst hf
  by_cases hi : r.id = i
  · rw [if_pos hi] at hid ⊢
    have hidr : r.id = j := hid
    rcases h r hr hidr with ht | ht
    · exact Or.inl ht
    · refine Or.inr ?_
      show r.max_retries ≤ r.retry_count + 1
      omega
  · rw [if_neg hi] at hid ⊢
    exact h r hr hid

theorem applyEventFailures_terminal_id (j : Int) (ids : List Int)
    (db : List EventRow) (h : ∀ r ∈ db, r.id = j → r.terminal) :
    ∀ r' ∈ applyEventFailures ids db, r'.id = j → r'.terminal := by
  induction ids generalizing db with
  | nil => exact h
  | cons i ids ih =>
    exact ih (mark_event_failed i db) (mark_event_failed_terminal_id j i db h)

theorem mark_heartbeat_failed_terminal_id (j i : Int) (db : List HeartbeatRow)
    (h : ∀ r ∈ db, r.id = j → r.terminal) :
    ∀ r' ∈ mark_heartbeat_failed i db, r'.id = j → r'.terminal := by
  intro r' hr' hid
  rcases List.mem_map.mp hr' with ⟨r, hr, hf⟩
  subst hf
  by_cases hi : r.id = i
  · rw [if_pos hi] at hid ⊢
    have hidr : r.id = j := hid
    rcases h r hr hidr with ht | ht
    · exact Or.inl ht
    · refine Or.inr ?_
      show r.max_retries ≤ r.retry_count + 1
      omega
  · rw [if_neg hi] at hid ⊢
    exact h r hr hid

theorem applyHeartbeatFailures_terminal_id (j : Int) (ids : List Int)
    (db : List HeartbeatRow) (h : ∀ r ∈ db, r.id = j → r.terminal) :
    ∀ r' ∈ applyHeartbeatFailures ids db, r'.id = j → r'.terminal := by
  induction ids generalizing db with
  | nil => exact h
  | cons i ids ih =>
    exact ih (mark_heartbeat_failed i db) (mark_heartbeat_failed_terminal_id j i db h)

/-- C2: Queue retry accounting is monotone and terminal.
`mark_event_failed` / `mark_heartbeat_failed` rewrite each row of the
queue into a row with the same id and processed flag whose retry count
is incremented by exactly one when the id matches and untouched
otherwise (so it never decreases), and a row that is terminal
(`processed = true` or `retry_count >= max_retries`) is never returned
by `get_pending_events` / `get_pending_heartbeats` after any further
sequence of mark-failed calls (drain calls read without mutating). -/
theorem queue_retry_monotone_terminal :
    (∀ (db : List EventRow) (i : Int) (r' : EventRow),
      r' ∈ mark_event_failed i db →
      ∃ r ∈ db, r'.id = r.id ∧ r'.processed = r.processed
        ∧ r.retry_count ≤ r'.retry_count
        ∧ (r.id = i → r'.retry_count = r.retry_count + 1)
        ∧ (r.id ≠ i → r' = r))
    ∧ (∀ (db : List EventRow) (ids : List Int) (j : Int),
      (∀ r ∈ db, r.id = j → r.terminal) →
      ∀ r' ∈ get_pending_events (applyEventFailures ids db), r'.id ≠ j)
    ∧ (∀ (db : List HeartbeatRow) (i : Int) (r' : HeartbeatRow),
      r' ∈ mark_heartbeat_failed i db →
      ∃ r ∈ db, r'.id = r.id ∧ r'.processed = r.processed
        ∧ r.retry_count ≤ r'.retry_count
        ∧ (r.id = i → r'.retry_count = r.retry_count + 1)
        ∧ (r.id ≠ i → r' = r))
    ∧ (∀ (db : List HeartbeatRow) (ids : List Int) (j : Int),
      (∀ r ∈ db, r.id = j → r.terminal) →
      ∀ r' ∈ get_pending_heartbeats (applyHeartbeatFailures ids db), r'.id ≠ j) := by
  refine ⟨?_, ?_, ?_, ?_⟩
  · intro db i r' hr'
    rcases List.mem_map.mp hr' with ⟨r, hr, hf⟩
    refine ⟨r, hr, ?_⟩
    by_cases hi : r.id = i
    · subst hf
      simp [hi]
    · subst hf
      simp [hi]
  · intro db ids j h r' hr' hid
    have hterm := applyEventFailures_terminal_id j ids db h r'
      (by
        have := (List.take_sublist 10 _).mem hr'
        exact List.mem_of_mem_filter ((mem_sortAsc _ r' _).mp this)) hid
    have hp := List.of_mem_filter ((mem_sortAsc _ r' _).mp ((List.take_sublist 10 _).mem hr'))
    simp only [Bool.and_eq_true, Bool.not_eq_eq_eq_not, Bool.not_true, decide_eq_true_eq] at hp
    rcases hterm with ht | ht
    · rw [ht] at hp
      simp at hp
    · omega
  · intro db i r' hr'
    rcases List.mem_map.mp hr' with ⟨r, hr, hf⟩
    refine ⟨r, hr, ?_⟩
    by_cases hi : r.id = i
    · subst hf
      simp [hi]
    · subst hf
      simp [hi]
  · intro db ids j h r' hr' hid
    have hterm := applyHeartbeatFailures_terminal_id j ids db h r'
      (by
        have := (List.take_sublist 10 _).mem hr'
        exact List.mem_of_mem_filter ((mem_sortAsc _ r' _).mp this)) hid
    have hp := List.of_mem_filter ((mem_sortAsc _ r' _).mp ((List.take_sublist 10 _).mem hr'))
    simp only [Bool.and_eq_true, Bool.not_eq_eq_eq_not, Bool.not_true, decide_eq_true_eq] at hp
    rcases hterm with ht | ht
    · rw [ht] at hp
      simp at hp
    · omega

/-! ### Session tracker invariants -/

/-- All sessions in the tracker history are closed. -/
def HistInactive (t : AppUsageTracker) : Prop :=
  ∀ s ∈ t.session_history, s.is_active = false

/-- The number of sessions the tracker holds with `is_active = true`. -/
def countActive (t : AppUsageTracker) : Nat :=
  ((trackerSessions t).filter (fun s => s.is_active)).length

theorem update_totals_history (t : AppUsageTracker) (s : AppUsageSession) :
    (t.update_totals s).session_history = t.session_history := by
  unfold AppUsageTracker.update_totals
  split
  · rfl
  · split <;> rfl

theorem update_totals_current (t : AppUsageTracker) (s : AppUsageSession) :
    (t.update_totals s).current_session = t.current_session := by
  unfold AppUsageTracker.update_totals
  split
  · rfl
  · split <;> rfl

theorem histInactive_step (t : AppUsageTracker) (op : TrackerOp)
    (h : HistInactive t) : HistInactive (applyTrackerOp t op) := by
  cases op with
  | start now n i w cat idle =>
    intro s hs
    unfold applyTrackerOp AppUsageTracker.start_app_session at hs
    simp only at hs
    cases hcur : t.current_session with
    | some current =>
      rw [hcur] at hs
      simp only [update_totals_history] at hs
      rcases List.mem_append.mp hs with hs | hs
      · exact h s hs
      · rw [List.mem_singleton.mp hs]
    | none =>
      rw [hcur] at hs
      exact h s hs
  | update idle =>
    intro s hs
    unfold applyTrackerOp AppUsageTracker.update_current_session at hs
    cases hcur : t.current_session with
    | some c =>
      rw [hcur] at hs
      exact h s hs
    | none =>
      rw [hcur] at hs
      exact h s hs
  | close now =>
    intro s hs
    unfold applyTrackerOp AppUsageTracker.end_current_session at hs
    cases hcur : t.current_session with
    | some current =>
      rw [hcur] at hs
      simp only [update_totals_history] at hs
      rcases List.mem_append.mp hs with hs | hs
      · exact h s hs
      · rw [List.mem_singleton.mp hs]
    | none =>
      rw [hcur] at hs
      exact h s hs

theorem histInactive_run (t : AppUsageTracker) (ops : List TrackerOp)
    (h : HistInactive t) : HistInactive (runTrackerOps t ops) := by
  induction ops generalizing t with
  | nil => exact h
  | cons op ops ih => exact ih (applyTrackerOp t op) (histInactive_step t op h)

theorem countActive_le_one (t : AppUsageTracker) (h : HistInactive t) :
    countActive t ≤ 1 := by
  unfold countActive trackerSessions
  rw [List.filter_append]
  have hhist : t.session_history.filter (fun s => s.is_active) = [] := by
    rw [List.filter_eq_nil_iff]
    intro s hs
    simp [h s hs]
  rw [hhist, List.append_nil]
  calc (t.current_session.toList.filter (fun s => s.is_active)).length
      ≤ t.current_session.toList.length := List.length_filter_le _ _
    _ ≤ 1 := by cases t.current_session <;> simp

/-- C1: At most one `AppUsageSession` is open at any time.  Starting
from a fresh tracker, any sequence of `start_app_session`,
`update_current_session` and `end_current_session` calls leaves the
tracker holding at most one session with `is_active = true`, and
`start_app_session` on a tracker with an open session first closes that
session (stamping its `end_time`, clearing `is_active`) and appends it
to the history before opening the new one. -/
theorem at_most_one_open_session :
    (∀ ops : List TrackerOp,
      countActive (runTrackerOps AppUsageTracker.new ops) ≤ 1)
    ∧ (∀ (t : AppUsageTracker) (now : Int) (n i : String) (w : Option String)
        (cat : ProductivityCategory) (idle : Bool) (c : AppUsageSession),
      t.current_session = some c →
      (t.start_app_session now n i w cat idle).session_history
        = t.session_history
          ++ [{ c with
                end_time := some now,
                duration_seconds := now - c.start_time,
                is_active := false }]
      ∧ ∃ ns, (t.start_app_session now n i w cat idle).current_session = some ns
          ∧ ns.is_active = true ∧ ns.start_time = now ∧ ns.end_time = none) := by
  constructor
  · intro ops
    refine countActive_le_one _ (histInactive_run _ ops ?_)
    intro s hs
    simp [AppUsageTracker.new] at hs
  · intro t now n i w cat idle c hc
    unfold AppUsageTracker.start_app_session
    rw [hc]
    refine ⟨?_, _, rfl, rfl, rfl, rfl⟩
    simp only [update_totals_history]

/-- The open session of the concrete witness tracker below. -/
def witnessSession : AppUsageSession :=
  ⟨none, "a", "a.exe", none, ProductivityCategory.NEUTRAL, 3, none, 0, false, true⟩

/-- A concrete tracker holding one open session, for witnesses. -/
def witnessTracker : AppUsageTracker :=
  ⟨some witnessSession, [], 0, 0, 0, 0⟩

/-- Witness for `at_most_one_open_session` on a tracker with a concrete
open session. -/
theorem at_most_one_open_session_witness :
    (witnessTracker.start_app_session 10 "b" "b.exe" none
        ProductivityCategory.PRODUCTIVE false).session_history
      = witnessTracker.session_history
        ++ [{ witnessSession with
              end_time := some (10 : Int),
              duration_seconds := 10 - witnessSession.start_time,
              is_active := false }]
    ∧ ∃ ns, (witnessTracker.start_app_session 10 "b" "b.exe" none
        ProductivityCategory.PRODUCTIVE false).current_session = some ns
        ∧ ns.is_active = true ∧ ns.start_time = 10 ∧ ns.end_time = none :=
  at_most_one_open_session.2 witnessTracker 10 "b" "b.exe" none
    ProductivityCategory.PRODUCTIVE false witnessSession rfl

/-- C6: Duration correctness on close.  Every operation that closes an
open session — `start_app_session` closing the previous session on app
change, and `end_current_session` on explicit close (which is also the
forced close run when the sampling loop of `app_focus.rs` terminates) —
appends to the history a session whose `end_time` is the close instant
and whose `duration_seconds` equals `end_time - start_time` in whole
seconds; every other history entry is untouched. -/
theorem session_close_duration :
    (∀ (t : AppUsageTracker) (now : Int) (n i : String) (w : Option String)
        (cat : ProductivityCategory) (idle : Bool) (c : AppUsageSession),
      t.current_session = some c →
      ∀ s ∈ (t.start_app_session now n i w cat idle).session_history,
        s ∈ t.session_history
        ∨ (s.end_time = some now ∧ s.duration_seconds = now - s.start_time))
    ∧ (∀ (t : AppUsageTracker) (now : Int) (c : AppUsageSession),
      t.current_session = some c →
      ∀ s ∈ (t.end_current_session now).session_history,
        s ∈ t.session_history
        ∨ (s.end_time = some now ∧ s.duration_seconds = now - s.start_time)) := by
  constructor
  · intro t now n i w cat idle c hc s hs
    unfold AppUsageTracker.start_app_session at hs
    rw [hc] at hs
    simp only [update_totals_history] at hs
    rcases List.mem_append.mp hs with hs | hs
    · exact Or.inl hs
    · rw [List.mem_singleton.mp hs]
      exact Or.inr ⟨rfl, rfl⟩
  · intro t now c hc s hs
    unfold AppUsageTracker.end_current_session at hs
    rw [hc] at hs
    simp only [update_totals_history] at hs
    rcases List.mem_append.mp hs with hs | hs
    · exact Or.inl hs
    · rw [List.mem_singleton.mp hs]
      exact Or.inr ⟨rfl, rfl⟩

/-- Witness for `session_close_duration` on the concrete tracker. -/
theorem session_close_duration_witness :
    ∀ s ∈ (witnessTracker.end_current_session 10).session_history,
      s ∈ witnessTracker.session_history
      ∨ (s.end_time = some 10 ∧ s.duration_seconds = 10 - s.start_time) :=
  session_close_duration.2 witnessTracker 10 witnessSession rfl

/-! ### EXACT matcher case sensitivity -/

/-- Claim-side rendering of full (not ASCII-restricted) case-insensitive
equality for the characters appearing in this development: the ASCII
case mapping together with the Latin-1 pair É / é.  Any sound Unicode
case folding identifies this pair, so a matcher that implements
case-insensitive equality "for all inputs, not only ASCII ones" must
treat strings equal under this fold as equal. -/
def specCaseFold (c : Char) : Char :=
  if 'A' ≤ c ∧ c ≤ 'Z' then Char.ofNat (c.toNat + 32)
  else if c = 'É' then 'é'
  else c

/-- Claim-side case-insensitive string equality built on `specCaseFold`. -/
def specCiEq (s t : String) : Bool :=
  decide (s.data.map specCaseFold = t.data.map specCaseFold)

/-- Spec-side ASCII-case-insensitive equality, defined by pairwise
character comparison (structurally different from the code-side
`eqIgnoreAsciiCase`, which maps then compares whole lists). -/
def asciiCiEqChars : List Char → List Char → Bool
  | [], [] => true
  | a :: as, b :: bs => decide (asciiLowerChar a = asciiLowerChar b) && asciiCiEqChars as bs
  | _, _ => false

/-- Spec-side ASCII-case-insensitive equality on strings. -/
def asciiCiEq (s t : String) : Bool :=
  asciiCiEqChars s.data t.data

theorem asciiCiEqChars_eq_map (as bs : List Char) :
    asciiCiEqChars as bs = decide (as.map asciiLowerChar = bs.map asciiLowerChar) := by
  induction as generalizing bs with
  | nil => cases bs <;> simp [asciiCiEqChars]
  | cons a as ih =>
    cases bs with
    | nil => simp [asciiCiEqChars]
    | cons b bs => simp [asciiCiEqChars, ih]

theorem asciiCiEq_comm (s t : String) : asciiCiEq s t = asciiCiEq t s := by
  unfold asciiCiEq
  rw [asciiCiEqChars_eq_map, asciiCiEqChars_eq_map]
  simp [eq_comm]

/-- C8 counterexample: the claim asserts case-insensitive equality for
all inputs, not only ASCII ones, but the EXACT matcher compares É and é
(equal under any Unicode case folding) as different: the rule value "É"
fails to match the app name "é". -/
theorem exact_matcher_unicode_counterexample :
    specCiEq "É" "é" = true
    ∧ matches_rule noRegexEngine
        { matcher_type := "EXACT", value := "É",
          category := ProductivityCategory.PRODUCTIVE, priority := 100,
          is_active := true } "é" "zzz" none = false := by
  constructor
  · decide
  · decide

/-- C8 amended: for every EXACT rule and every input, the matcher is
satisfied if and only if the rule value is ASCII-case-insensitively
equal (non-ASCII characters compared exactly) to the app name, or to
the app id, or to the window title when a title is present. -/
theorem exact_matcher_ascii_ci (engine : RegexEngine) (rule : AppRule)
    (app_name app_id : String) (window_title : Option String)
    (h : rule.matcher_type = "EXACT") :
    matches_rule engine rule app_name app_id window_title = true ↔
      (asciiCiEq rule.value app_name = true
       ∨ asciiCiEq rule.value app_id = true
       ∨ ∃ t, window_title = some t ∧ asciiCiEq rule.value t = true) := by
  have hiff : ∀ u v : String, asciiCiEq u v = eqIgnoreAsciiCase v u := by
    intro u v
    unfold asciiCiEq eqIgnoreAsciiCase
    rw [asciiCiEqChars_eq_map]
    simp [eq_comm]
  unfold matches_rule
  rw [if_pos h]
  cases window_title with
  | none => simp [hiff, Bool.or_eq_true, or_assoc]
  | some title => simp [hiff, Bool.or_eq_true, or_assoc]

/-- Witness for `exact_matcher_ascii_ci` on a concrete EXACT rule. -/
theorem exact_matcher_ascii_ci_witness :
    matches_rule noRegexEngine
        { matcher_type := "EXACT", value := "Code.EXE",
          category := ProductivityCategory.PRODUCTIVE, priority := 100,
          is_active := true } "code.exe" "x" none = true ↔
      (asciiCiEq "Code.EXE" "code.exe" = true
       ∨ asciiCiEq "Code.EXE" "x" = true
       ∨ ∃ t, (none : Option String) = some t ∧ asciiCiEq "Code.EXE" t = true) :=
  exact_matcher_ascii_ci noRegexEngine
    { matcher_type := "EXACT", value := "Code.EXE",
      category := ProductivityCategory.PRODUCTIVE, priority := 100,
      is_active := true } "code.exe" "x" none rfl

/-- C9: Invalid regex degrades to non-match.  For every REGEX rule whose
pattern fails to compile and every input, the matcher evaluates to
false, and `classify_app` on a rule list containing such a rule equals
`classify_app` on the list with that rule removed (evaluation simply
continues with the remaining rules; the function is total, so
classification always returns a category). -/
theorem invalid_regex_non_match (engine : RegexEngine) (rule : AppRule)
    (app_name app_id : String) (window_title : Option String)
    (hm : rule.matcher_type = "REGEX") (hc : engine.compile rule.value = none) :
    matches_rule engine rule app_name app_id window_title = false
    ∧ ∀ (pre post : List AppRule) (d : ProductivityCategory),
      ProductivityClassifier.classify_app ⟨pre ++ rule :: post, d⟩ engine
          app_name app_id window_title
        = ProductivityClassifier.classify_app ⟨pre ++ post, d⟩ engine
          app_name app_id window_title := by
  have hfalse : matches_rule engine rule app_name app_id window_title = false := by
    unfold matches_rule
    rw [if_neg (show ¬ rule.matcher_type = "EXACT" by rw [hm]; decide),
        if_neg (show ¬ rule.matcher_type = "GLOB" by rw [hm]; decide),
        if_pos hm]
    cases window_title <;> simp [matches_regex, hc]
  refine ⟨hfalse, ?_⟩
  intro pre post d
  unfold ProductivityClassifier.classify_app
  have hfm : ∀ l : List AppRule,
      firstMatch engine app_name app_id window_title (l ++ rule :: post)
        = firstMatch engine app_name app_id window_title (l ++ post) := by
    intro l
    induction l with
    | nil =>
      simp only [List.nil_append]
      rw [firstMatch]
      simp [hfalse]
    | cons x xs ih =>
      simp only [List.cons_append]
      rw [firstMatch, firstMatch, ih]
  rw [hfm pre]

/-- Witness for `invalid_regex_non_match` on a concrete rule whose
pattern fails to compile on the concrete engine. -/
theorem invalid_regex_non_match_witness :
    matches_rule noRegexEngine
        { matcher_type := "REGEX", value := "(",
          category := ProductivityCategory.PRODUCTIVE, priority := 10,
          is_active := true } "chrome.exe" "chrome.exe" none = false
    ∧ ∀ (pre post : List AppRule) (d : ProductivityCategory),
      ProductivityClassifier.classify_app
          ⟨pre ++ { matcher_type := "REGEX", value := "(",
                    category := ProductivityCategory.PRODUCTIVE, priority := 10,
                    is_active := true } :: post, d⟩ noRegexEngine
          "chrome.exe" "chrome.exe" none
        = ProductivityClassifier.classify_app ⟨pre ++ post, d⟩ noRegexEngine
          "chrome.exe" "chrome.exe" none :=
  invalid_regex_non_match noRegexEngine
    { matcher_type := "REGEX", value := "(",
      category := ProductivityCategory.PRODUCTIVE, priority := 10,
      is_active := true } "chrome.exe" "chrome.exe" none rfl rfl

/-! ### Classifier rule ordering

`add_rule` pushes and then stably re-sorts by descending priority.  The
lemmas below characterise the resulting rule order directly on the
insertion sequence: a rule appended last lands after every rule of
priority greater than or equal to its own (`insertLast`), and the first
active match in the sorted order is the earliest-inserted active match
of maximal priority (`bestMatch`). -/

/-- Insertion of a rule that was pushed last: under a stable descending
sort it is placed after every element whose priority is ≥ its own. -/
def insertLast (r : AppRule) : List AppRule → List AppRule
  | [] => [r]
  | y :: ys => if y.priority < r.priority then r :: y :: ys else y :: insertLast r ys

/-- Specification-side selection, phrased on the insertion sequence
exactly as the spec words it: among active rules whose matcher is
satisfied, the one of highest priority wins, and on priority ties the
earlier-inserted rule wins. -/
def bestMatch (engine : RegexEngine) (app_name app_id : String)
    (window_title : Option String) : List AppRule → Option AppRule
  | [] => none
  | x :: l =>
    if x.is_active && matches_rule engine x app_name app_id window_title then
      match bestMatch engine app_name app_id window_title l with
      | some r => if x.priority < r.priority then some r else some x
      | none => some x
    else bestMatch engine app_name app_id window_title l

theorem mem_sortInsert (r x : AppRule) (l : List AppRule) :
    x ∈ sortInsert r l ↔ x = r ∨ x ∈ l := by
  induction l with
  | nil => simp [sortInsert]
  | cons y ys ih =>
    by_cases h : y.priority ≤ r.priority
    · simp [sortInsert, h]
    · simp [sortInsert, h, ih]
      tauto

theorem sortInsert_insertLast_comm (x r : AppRule) (s : List AppRule) :
    sortInsert x (insertLast r s) = insertLast r (sortInsert x s) := by
  induction s with
  | nil =>
    simp only [insertLast, sortInsert]
    by_cases h1 : r.priority ≤ x.priority
    · rw [if_pos h1, if_neg (show ¬ x.priority < r.priority by omega)]
    · rw [if_neg h1, if_pos (show x.priority < r.priority by omega)]
  | cons y ys ih =>
    by_cases h1 : y.priority < r.priority
    · rw [insertLast, if_pos h1]
      by_cases h2 : r.priority ≤ x.priority
      · rw [sortInsert, if_pos h2, sortInsert,
          if_pos (show y.priority ≤ x.priority by omega), insertLast,
          if_neg (show ¬ x.priority < r.priority by omega), insertLast, if_pos h1]
      · rw [sortInsert, if_neg h2]
        by_cases h3 : y.priority ≤ x.priority
        · rw [sortInsert, if_pos h3, insertLast,
            if_pos (show x.priority < r.priority by omega)]
        · rw [sortInsert, if_neg h3, insertLast, if_pos h1]
    · rw [insertLast, if_neg h1]
      by_cases h2 : y.priority ≤ x.priority
      · rw [sortInsert, if_pos h2, sortInsert, if_pos h2, insertLast,
          if_neg (show ¬ x.priority < r.priority by omega), insertLast, if_neg h1]
      · rw [sortInsert, if_neg h2, sortInsert, if_neg h2, insertLast, if_neg h1, ih]

theorem sortRules_append_singleton (l : List AppRule) (r : AppRule) :
    sortRules (l ++ [r]) = insertLast r (sortRules l) := by
  induction l with
  | nil =>
    simp [sortRules, sortInsert, insertLast]
  | cons x xs ih =>
    rw [List.cons_append, sortRules, ih, sortRules, sortInsert_insertLast_comm]

/-- A rule list sorted by (weakly) descending priority. -/
def SortedDesc (l : List AppRule) : Prop :=
  l.Pairwise (fun a b => b.priority ≤ a.priority)

theorem sortInsert_sortedDesc (x : AppRule) (s : List AppRule)
    (h : SortedDesc s) : SortedDesc (sortInsert x s) := by
  induction s with
  | nil =>
    simp [sortInsert, SortedDesc]
  | cons y ys ih =>
    rcases List.pairwise_cons.mp h with ⟨hy, hys⟩
    by_cases hc : y.priority ≤ x.priority
    · rw [sortInsert, if_pos hc]
      refine List.pairwise_cons.mpr ⟨?_, h⟩
      intro z hz
      rcases List.mem_cons.mp hz with hz | hz
      · exact hz ▸ hc
      · exact le_trans (hy z hz) hc
    · rw [sortInsert, if_neg hc]
      refine List.pairwise_cons.mpr ⟨?_, ih hys⟩
      intro z hz
      rcases (mem_sortInsert x z ys).mp hz with hz | hz
      · exact hz ▸ le_of_lt (lt_of_not_le hc)
      · exact hy z hz

theorem sortRules_sortedDesc (l : List AppRule) : SortedDesc (sortRules l) := by
  induction l with
  | nil => simp [sortRules, SortedDesc]
  | cons x xs ih => exact sortInsert_sortedDesc x (sortRules xs) ih

theorem sortRules_of_sorted (l : List AppRule) (h : SortedDesc l) :
    sortRules l = l := by
  induction l with
  | nil => rfl
  | cons x xs ih =>
    rcases List.pairwise_cons.mp h with ⟨hx, hxs⟩
    rw [sortRules, ih hxs]
    cases xs with
    | nil => rfl
    | cons y ys => rw [sortInsert, if_pos (hx y (List.mem_cons_self y ys))]

theorem sortRules_idem (l : List AppRule) :
    sortRules (sortRules l) = sortRules l :=
  sortRules_of_sorted (sortRules l) (sortRules_sortedDesc l)

theorem add_rules_default (c : ProductivityClassifier) (rs : List AppRule) :
    (c.add_rules rs).default_category = c.default_category := by
  induction rs generalizing c with
  | nil => rfl
  | cons r rs ih => exact ih (c.add_rule r)

theorem add_rules_rules_sorted (rs : List AppRule) (l : List AppRule)
    (d : ProductivityCategory) :
    (ProductivityClassifier.add_rules ⟨sortRules l, d⟩ rs).rules
      = sortRules (l ++ rs) := by
  induction rs generalizing l with
  | nil =>
    simp [ProductivityClassifier.add_rules]
  | cons r rs ih =>
    have hstep : ProductivityClassifier.add_rule ⟨sortRules l, d⟩ r
        = ⟨sortRules (l ++ [r]), d⟩ := by
      unfold ProductivityClassifier.add_rule
      simp only [sortRules_append_singleton, sortRules_idem]
    show (ProductivityClassifier.add_rules
        (ProductivityClassifier.add_rule ⟨sortRules l, d⟩ r) rs).rules = _
    rw [hstep, ih (l ++ [r]), List.append_assoc]
    rfl

theorem add_rules_new_rules (added : List AppRule) :
    (ProductivityClassifier.new.add_rules added).rules = sortRules added := by
  have h := add_rules_rules_sorted added [] ProductivityCategory.NEUTRAL
  simpa [ProductivityClassifier.new, sortRules] using h

theorem firstMatch_mem (engine : RegexEngine) (n i : String) (w : Option String)
    (l : List AppRule) (r : AppRule)
    (h : firstMatch engine n i w l = some r) : r ∈ l := by
  induction l with
  | nil => simp [firstMatch] at h
  | cons x xs ih =>
    rw [firstMatch] at h
    by_cases hc : (x.is_active && matches_rule engine x n i w) = true
    · rw [if_pos hc] at h
      exact List.mem_cons.mpr (Or.inl (Option.some.injEq _ _ ▸ h.symm))
    · rw [if_neg hc] at h
      exact List.mem_cons.mpr (Or.inr (ih h))

theorem sortedDesc_head_bound (y : AppRule) (ys : List AppRule)
    (h : SortedDesc (y :: ys)) (z : AppRule) (hz : z ∈ y :: ys) :
    z.priority ≤ y.priority := by
  rcases List.pairwise_cons.mp h with ⟨hy, _⟩
  rcases List.mem_cons.mp hz with hz | hz
  · exact hz ▸ le_refl _
  · exact hy z hz

theorem firstMatch_sortInsert (engine : RegexEngine) (n i : String)
    (w : Option String) (x : AppRule) (s : List AppRule) (hs : SortedDesc s) :
    firstMatch engine n i w (sortInsert x s)
      = if (x.is_active && matches_rule engine x n i w) = true then
          match firstMatch engine n i w s with
          | some r => if x.priority < r.priority then some r else some x
          | none => some x
        else firstMatch engine n i w s := by
  induction s with
  | nil =>
    by_cases hx : (x.is_active && matches_rule engine x n i w) = true
    · simp [sortInsert, firstMatch, hx]
    · simp [sortInsert, firstMatch, hx]
  | cons y ys ih =>
    rcases List.pairwise_cons.mp hs with ⟨hy, hys⟩
    by_cases hc : y.priority ≤ x.priority
    · rw [sortInsert, if_pos hc]
      by_cases hx : (x.is_active && matches_rule engine x n i w) = true
      · rw [firstMatch, if_pos hx, if_pos hx]
        cases hfm : firstMatch engine n i w (y :: ys) with
        | none => rfl
        | some r =>
          have hb : r.priority ≤ x.priority :=
            le_trans (sortedDesc_head_bound y ys hs r
              (firstMatch_mem engine n i w (y :: ys) r hfm)) hc
          exact (if_neg (not_lt.mpr hb)).symm
      · rw [firstMatch, if_neg hx, if_neg hx]
    · rw [sortInsert, if_neg hc]
      by_cases hyc : (y.is_active && matches_rule engine y n i w) = true
      · rw [firstMatch, if_pos hyc]
        rw [show firstMatch engine n i w (y :: ys) = some y by
          rw [firstMatch, if_pos hyc]]
        by_cases hx : (x.is_active && matches_rule engine x n i w) = true
        · rw [if_pos hx]
          exact (if_pos (show x.priority < y.priority by omega)).symm
        · rw [if_neg hx]
      · rw [firstMatch, if_neg hyc]
        rw [show firstMatch engine n i w (y :: ys)
            = firstMatch engine n i w ys by rw [firstMatch, if_neg hyc]]
        exact ih hys

theorem firstMatch_sortRules_eq_bestMatch (engine : RegexEngine) (n i : String)
    (w : Option String) (l : List AppRule) :
    firstMatch engine n i w (sortRules l) = bestMatch engine n i w l := by
  induction l with
  | nil => rfl
  | cons x xs ih =>
    rw [sortRules,
      firstMatch_sortInsert engine n i w x (sortRules xs) (sortRules_sortedDesc xs),
      ih, bestMatch]

theorem classify_app_eq_bestMatch (engine : RegexEngine) (added : List AppRule)
    (n i : String) (w : Option String) :
    (ProductivityClassifier.new.add_rules added).classify_app engine n i w
      = match bestMatch engine n i w added with
        | some r => r.category
        | none => ProductivityCategory.NEUTRAL := by
  unfold ProductivityClassifier.classify_app
  rw [add_rules_new_rules, firstMatch_sortRules_eq_bestMatch]
  cases bestMatch engine n i w added with
  | none =>
    simp [add_rules_default, ProductivityClassifier.new]
  | some r => rfl

/-- C3: Classifier priority order.  For every rule sequence added in
insertion order to a fresh classifier and every input, `classify_app`
returns the category selected by the specification order — the first
active rule whose matcher is satisfied when rules are ordered by
descending priority with ties broken by insertion order (`bestMatch`) —
and the default category NEUTRAL when no active rule matches; in
particular, with two active rules matching the same input at priorities
50 and 100, the result is the priority-100 rule's category regardless
of insertion order. -/
theorem classifier_priority_refinement :
    (∀ (engine : RegexEngine) (added : List AppRule) (n i : String)
        (w : Option String),
      (ProductivityClassifier.new.add_rules added).classify_app engine n i w
        = match bestMatch engine n i w added with
          | some r => r.category
          | none => ProductivityCategory.NEUTRAL)
    ∧ (∀ (engine : RegexEngine) (r50 r100 : AppRule) (n i : String)
        (w : Option String),
      r50.priority = 50 → r100.priority = 100 →
      r50.is_active = true → r100.is_active = true →
      matches_rule engine r50 n i w = true →
      matches_rule engine r100 n i w = true →
      (ProductivityClassifier.new.add_rules [r50, r100]).classify_app engine n i w
        = r100.category
      ∧ (ProductivityClassifier.new.add_rules [r100, r50]).classify_app engine n i w
        = r100.category) := by
  refine ⟨classify_app_eq_bestMatch, ?_⟩
  intro engine r50 r100 n i w hp50 hp100 ha50 ha100 hm50 hm100
  constructor
  · rw [classify_app_eq_bestMatch]
    simp [bestMatch, ha50, ha100, hm50, hm100, hp50, hp100]
  · rw [classify_app_eq_bestMatch]
    simp [bestMatch, ha50, ha100, hm50, hm100, hp50, hp100]

/-- A priority-50 rule for the classifier witness. -/
def rule50 : AppRule :=
  ⟨"EXACT", "app", ProductivityCategory.UNPRODUCTIVE, 50, true⟩

/-- A priority-100 rule for the classifier witness. -/
def rule100 : AppRule :=
  ⟨"EXACT", "app", ProductivityCategory.PRODUCTIVE, 100, true⟩

/-- Witness for `classifier_priority_refinement`: two concrete EXACT
rules matching the same input at priorities 50 and 100; either insertion
order yields the priority-100 category. -/
theorem classifier_priority_refinement_witness :
    (ProductivityClassifier.new.add_rules [rule50, rule100]).classify_app
        noRegexEngine "app" "x" none = rule100.category
    ∧ (ProductivityClassifier.new.add_rules [rule100, rule50]).classify_app
        noRegexEngine "app" "x" none = rule100.category :=
  classifier_priority_refinement.2 noRegexEngine rule50 rule100 "app" "x" none
    rfl rfl rfl rfl (by decide) (by decide)

/-- A terminal (out of retry budget) event row for witnesses. -/
def erowT : EventRow := ⟨1, "app_focus", "d1", 5, 3, 3, false⟩

/-- A pending event row for witnesses. -/
def erowP : EventRow := ⟨2, "app_focus", "d2", 6, 0, 3, false⟩

/-- A terminal heartbeat row for witnesses. -/
def hrowT : HeartbeatRow := ⟨1, "h1", 5, 3, 3, false⟩

/-- A pending heartbeat row for witnesses. -/
def hrowP : HeartbeatRow := ⟨2, "h2", 6, 0, 3, false⟩

/-- Witness for `queue_retry_monotone_terminal` on concrete queues: a
failed mark bumps the matching row by one, and a terminal row stays out
of the drain result after further failure marks. -/
theorem queue_retry_monotone_terminal_witness :
    (∃ r ∈ [erowP], ({ erowP with retry_count := 1 } : EventRow).id = r.id
      ∧ ({ erowP with retry_count := 1 } : EventRow).processed = r.processed
      ∧ r.retry_count ≤ ({ erowP with retry_count := 1 } : EventRow).retry_count
      ∧ (r.id = 2 → ({ erowP with retry_count := 1 } : EventRow).retry_count
          = r.retry_count + 1)
      ∧ (r.id ≠ 2 → ({ erowP with retry_count := 1 } : EventRow) = r))
    ∧ erowP.id ≠ 1
    ∧ (∃ r ∈ [hrowP], ({ hrowP with retry_count := 1 } : HeartbeatRow).id = r.id
      ∧ ({ hrowP with retry_count := 1 } : HeartbeatRow).processed = r.processed
      ∧ r.retry_count ≤ ({ hrowP with retry_count := 1 } : HeartbeatRow).retry_count
      ∧ (r.id = 2 → ({ hrowP with retry_count := 1 } : HeartbeatRow).retry_count
          = r.retry_count + 1)
      ∧ (r.id ≠ 2 → ({ hrowP with retry_count := 1 } : HeartbeatRow) = r))
    ∧ hrowP.id ≠ 1 :=
  ⟨queue_retry_monotone_terminal.1 [erowP] 2 { erowP with retry_count := 1 }
      (by decide),
   queue_retry_monotone_terminal.2.1 [erowT, erowP] [1] 1
      (by simp only [EventRow.terminal]; decide) erowP (by decide),
   queue_retry_monotone_terminal.2.2.1 [hrowP] 2 { hrowP with retry_count := 1 }
      (by decide),
   queue_retry_monotone_terminal.2.2.2 [hrowT, hrowP] [1] 1
      (by simp only [HeartbeatRow.terminal]; decide) hrowP (by decide)⟩

/-- Witness for `drain_candidate_selection` on concrete one-row queues. -/
theorem drain_candidate_selection_witness :
    (erowP.processed = false ∧ erowP.retry_count < erowP.max_retries)
    ∧ (hrowP.processed = false ∧ hrowP.retry_count < hrowP.max_retries) :=
  ⟨(drain_candidate_selection.1 [erowP]).1 erowP (by decide),
   (drain_candidate_selection.2 [hrowP]).1 hrowP (by decide)⟩
